import Mathlib

/-!
Verification of the DNS zone reconciliation core of cli-terraform
(pkg/providers/dns/command_create_zone.go).

The shallow embedding models file contents as Lean strings (one `Char`
per byte in all examples considered), file-system presence as
`Option String`, and the Go maps `map[string]Types` /
`map[string]bool` as association lists.  `strings.Contains` is
embedded as an executable substring test `containsSubstr` defined from
scratch below, together with its characterisation lemmas.

Layout of the file: all definitions first, then the theorems.
-/

set_option maxRecDepth 4000

namespace CliTerraform

/-- Executable test that `p` is an initial segment of `l`. -/
def listIsPfx : List Char → List Char → Bool
  | [], _ => true
  | _ :: _, [] => false
  | a :: as, b :: bs => a == b && listIsPfx as bs

/-- Executable test that `p` occurs contiguously inside `l`; embedding of
Go `strings.Contains l p` (on the character level). -/
def listIsSub (p : List Char) : List Char → Bool
  | [] => listIsPfx p []
  | b :: bs => listIsPfx p (b :: bs) || listIsSub p bs

/-- Go `strings.Contains text pat`. -/
def containsSubstr (text pat : String) : Bool :=
  listIsSub pat.data text.data

/-- The quoted form `"\"" + s + "\""` that command_create_zone.go line 986
matches against the existing configuration text. -/
def quoted (s : String) : String :=
  "\"" ++ s ++ "\""

/-- Record types grouped under one record name (Go: `type Types []string`). -/
abbrev Types := List String

/-- Go struct `zoneImportListStruct`: the zone inventory, recordsets grouped
by record name (the Go `map[string]Types` is an association list here). -/
structure zoneImportListStruct where
  Zone : String
  Recordsets : List (String × Types)
deriving DecidableEq, Repr

/-- Modelled from the spec: `createUniqueRecordsetName` (called
`createRecordsetNormalName` in the older file) and `normalizeResourceName`
are not under src/.  Per the spec, membership is decided on the composite
identifier of the form `(zoneIdentifier, recordName, recordType)`; it is
rendered here as the three components joined by underscores. -/
def createUniqueRecordsetName (zoneName zname ntype : String) : String :=
  zoneName ++ "_" ++ zname ++ "_" ++ ntype

/-- Inner loop of `reconcileZoneResourceTargets` (lines 984-992): walk the
type list of one record name; a type whose quoted composite identifier
occurs in `tfConfig` is excluded, otherwise it is kept in the revised list
and marked `true` in the per-name type map. -/
def reconcileTypes (tfConfig zoneName zname : String) : Types → Types × List (String × Bool)
  | [] => ([], [])
  | ntype :: rest =>
    let normalName := createUniqueRecordsetName zoneName zname ntype
    let step := reconcileTypes tfConfig zoneName zname rest
    if containsSubstr tfConfig (quoted normalName) then step
    else (ntype :: step.1, (ntype, true) :: step.2)

/-- Loop body of `reconcileZoneResourceTargets` (lines 981-995) on an
already-scanned `tfConfig`: revise every record name's type list and build
the per-name boolean type map. -/
def reconcileZoneResourceTargets (zoneImportList : zoneImportListStruct)
    (zoneName tfConfig : String) :
    zoneImportListStruct × List (String × List (String × Bool)) :=
  let processed := zoneImportList.Recordsets.map
    (fun p => (p.1, reconcileTypes tfConfig zoneName p.1 p.2))
  (⟨zoneImportList.Zone, processed.map (fun q => (q.1, q.2.1))⟩,
   processed.map (fun q => (q.1, q.2.2)))

/-- The ResidualSet: recordsets of the revised import list. -/
def residualOf (inv : zoneImportListStruct) (zoneName tfConfig : String) :
    List (String × Types) :=
  (reconcileZoneResourceTargets inv zoneName tfConfig).1.Recordsets

/-- File-reading part of `reconcileZoneResourceTargets` (lines 953-979):
the file is opened with `O_CREATE|O_RDWR` (created empty when absent), its
whole content is read, the handle is rewound to offset 0, and when at
least one byte was read, the scanned text is the slice
`tfScratch[0:charsRead-1]` — the content with its final byte removed. -/
def scanExistingConfig (file : Option String) : String :=
  match file with
  | none => ""
  | some content =>
    if 0 < content.data.length then String.mk content.data.dropLast else ""

/-- Layout-conflict check of `CmdCreateZone` (lines 791-802), applied when
the scanned zone config text is non-empty: text containing both marker
substrings is modularized and rejects a flat run; text lacking them is flat
and rejects a `segmentConfig` (`ModSegment`) run. -/
def checkZoneConfigLayout (zonetfConfig : String) (modSegment : Bool) :
    Except String Unit :=
  if 0 < zonetfConfig.data.length then
    if containsSubstr zonetfConfig "module" && containsSubstr zonetfConfig "zonename" then
      if !modSegment then Except.error "Failed. Existing zone config is modularized"
      else Except.ok ()
    else
      if modSegment then Except.error "Failed. Existing zone config is not modularized"
      else Except.ok ()
  else Except.ok ()

/-- Writing `text` through a handle positioned at offset 0 of a file that
currently holds `old` (Go `File.Write` after `Seek(0, 0)`, no truncation):
the bytes of `text` replace the first `text.length` bytes of `old` and any
remaining old bytes survive. -/
def writeAtStart (old text : String) : String :=
  String.mk (text.data ++ old.data.drop text.data.length)

/-- File effect of one createConfig run on the target zone file
(lines 782-817 plus the emitter): scan the prior file, run the layout
check, keep the scanned text as `zonetfConfig` when non-empty (otherwise
use the freshly rendered zone declaration `freshZoneText`), then write
`zonetfConfig` followed by the rendered residual declarations through the
handle still positioned at offset 0.  The rendering of the residual
declarations is the templating collaborator (not under src/, per the spec
it appends only the residual resources); it is the `rendered` argument. -/
def zoneConfigRun (priorFile : Option String) (modSegment : Bool)
    (freshZoneText rendered : String) : Except String String :=
  match checkZoneConfigLayout (scanExistingConfig priorFile) modSegment with
  | Except.error e => Except.error e
  | Except.ok _ =>
    Except.ok (writeAtStart (priorFile.getD "")
      ((if 0 < (scanExistingConfig priorFile).data.length then scanExistingConfig priorFile
        else freshZoneText) ++ rendered))

/-- Terraform resource names (lines 35-36). -/
def zoneResource : String := "akamai_dns_zone"

/-- Terraform resource names (lines 35-36). -/
def recordsetResource : String := "akamai_dns_record"

/-- Modelled from the spec: `checkForResource` is not under src/.  Per the
spec, a resource is already declared exactly when its identifier appears as
a quoted token within the previously scanned configuration text
`zonetfConfig`; the resource type argument is kept for signature fidelity. -/
def checkForResource (resourceType resourceName zonetfConfig : String) : Bool :=
  let _ := resourceType
  containsSubstr zonetfConfig (quoted resourceName)

/-- Inner loop of `buildZoneImportScript` (lines 454-462): one
`terraform import` line per record type whose recordset resource is not
already declared. -/
def typeImportLines (zone resourceName zonetfConfig zname : String) : Types → String
  | [] => ""
  | tname :: rest =>
    let normalName := createUniqueRecordsetName resourceName zname tname
    (if !(checkForResource recordsetResource normalName zonetfConfig) then
      "terraform import " ++ recordsetResource ++ "." ++ normalName ++ " "
        ++ zone ++ "#" ++ zname ++ "#" ++ tname ++ "\n"
    else "") ++ typeImportLines zone resourceName zonetfConfig zname rest

/-- Outer loop of `buildZoneImportScript` over the zone config map. -/
def recordImportLines (zone resourceName zonetfConfig : String) :
    List (String × Types) → String
  | [] => ""
  | p :: rest =>
    typeImportLines zone resourceName zonetfConfig p.1 p.2
      ++ recordImportLines zone resourceName zonetfConfig rest

/-- `buildZoneImportScript` (lines 441-466): a leading `terraform init`
line, one import line for the zone resource itself unless it is already
declared, then one import line per (name, type) pair of the zone config
map whose recordset resource is not already declared. -/
def buildZoneImportScript (zone : String) (zoneConfigMap : List (String × Types))
    (resourceName zonetfConfig : String) : String :=
  "terraform init\n"
    ++ (if !(checkForResource zoneResource resourceName zonetfConfig) then
          "terraform import " ++ zoneResource ++ "." ++ resourceName ++ " " ++ zone ++ "\n"
        else "")
    ++ recordImportLines zone resourceName zonetfConfig zoneConfigMap

/-- Number of lines of a generated script: every emitted line ends in a
single newline character. -/
def countLines (s : String) : Nat :=
  s.data.count (Char.ofNat 10)

/-- Number of record types under one name whose recordset resource is not
already declared. -/
def undeclaredTypeCount (resourceName zonetfConfig zname : String) (ts : Types) : Nat :=
  ts.countP (fun tname =>
    !(checkForResource recordsetResource
        (createUniqueRecordsetName resourceName zname tname) zonetfConfig))

/-- Number of (name, type) pairs of the config map whose recordset resource
is not already declared. -/
def undeclaredCount (resourceName zonetfConfig : String)
    (m : List (String × Types)) : Nat :=
  (m.map (fun p => undeclaredTypeCount resourceName zonetfConfig p.1 p.2)).sum

/-- `retrieveZoneImportList` (lines 1001-1028).  `createImportListFlag` is
the package-level `createImportList`, `fullList` the in-memory
`fullZoneImportList` built by the same run, `sideFile` the parsed content
of the persisted zone resources JSON file (`none` when the file is missing
or unreadable).  With `configOnly` set the function returns a fresh list
holding only the zone name and an empty recordset map; the side file is
read only when neither flag is set. -/
def retrieveZoneImportList (createImportListFlag : Bool)
    (fullList : zoneImportListStruct) (configOnly : Bool) (zoneName : String)
    (sideFile : Option zoneImportListStruct) : Except Unit zoneImportListStruct :=
  if createImportListFlag then Except.ok fullList
  else if configOnly then Except.ok ⟨zoneName, []⟩
  else
    match sideFile with
    | none => Except.error ()
    | some l => Except.ok l

/-- Creating-the-zone-resources-list-file step of `CmdCreateZone`
(lines 729-760), as a transition on the resource list file: the result is
`(commandSucceeded, fileAfter)`.  When the work path is not an accessible
directory the command bails; when the resource list file already exists the
command bails before creating or writing anything; otherwise the
marshalled inventory JSON is written. -/
def createImportListFileStep (workPathIsDir : Bool)
    (resourceListFile : Option String) (inventoryJSON : String) :
    Bool × Option String :=
  if workPathIsDir then
    match resourceListFile with
    | some existing => (false, some existing)
    | none => (true, some inventoryJSON)
  else (false, resourceListFile)

/- ------------------------------------------------------------------ -/
/- Theorems.                                                          -/
/- ------------------------------------------------------------------ -/

theorem listIsPfx_iff (p l : List Char) :
    listIsPfx p l = true ↔ ∃ t, l = p ++ t := by
  induction p generalizing l with
  | nil => simp [listIsPfx]
  | cons a as ih =>
    cases l with
    | nil => simp [listIsPfx]
    | cons b bs =>
      simp only [listIsPfx, Bool.and_eq_true, beq_iff_eq, ih, List.cons_append,
        List.cons.injEq]
      constructor
      · rintro ⟨rfl, t, rfl⟩
        exact ⟨t, rfl, rfl⟩
      · rintro ⟨t, rfl, rfl⟩
        exact ⟨rfl, t, rfl⟩

theorem listIsSub_iff (p l : List Char) :
    listIsSub p l = true ↔ ∃ s t, l = s ++ p ++ t := by
  induction l with
  | nil =>
    simp only [listIsSub, listIsPfx_iff]
    constructor
    · rintro ⟨t, ht⟩
      exact ⟨[], t, by simpa using ht⟩
    · rintro ⟨s, t, hst⟩
      have hs : s = [] := by
        cases s with
        | nil => rfl
        | cons x xs => simp at hst
      subst hs
      exact ⟨t, by simpa using hst⟩
  | cons b bs ih =>
    simp only [listIsSub, Bool.or_eq_true, listIsPfx_iff, ih]
    constructor
    · rintro (⟨t, ht⟩ | ⟨s, t, hst⟩)
      · exact ⟨[], t, by simpa using ht⟩
      · exact ⟨b :: s, t, by simp [hst]⟩
    · rintro ⟨s, t, hst⟩
      cases s with
      | nil =>
        left
        exact ⟨t, by simpa using hst⟩
      | cons x xs =>
        right
        simp only [List.cons_append, List.cons.injEq] at hst
        exact ⟨xs, t, hst.2⟩

theorem containsSubstr_iff (text pat : String) :
    containsSubstr text pat = true ↔ ∃ s t, text.data = s ++ pat.data ++ t := by
  exact listIsSub_iff pat.data text.data

/-- Substring containment composes: a pattern found in `t0` is found in any
text that contains `t0`. -/
theorem containsSubstr_trans (t0 t1 pat : String)
    (h0 : containsSubstr t0 pat = true) (h1 : containsSubstr t1 t0 = true) :
    containsSubstr t1 pat = true := by
  rw [containsSubstr_iff] at h0 h1 ⊢
  obtain ⟨s, t, hst⟩ := h0
  obtain ⟨u, v, huv⟩ := h1
  refine ⟨u ++ s, t ++ v, ?_⟩
  simp [huv, hst]

/-- Nothing but the empty pattern occurs in the empty text; the quoted form
of any name is non-empty, so it never occurs in `""`. -/
theorem containsSubstr_empty (pat : String) (h : pat.data ≠ []) :
    containsSubstr "" pat = false := by
  rcases hEq : containsSubstr "" pat with _ | _
  · rfl
  · exfalso
    rw [containsSubstr_iff] at hEq
    obtain ⟨s, t, hst⟩ := hEq
    have hnil : ([] : List Char) = s ++ pat.data ++ t := hst
    cases s with
    | nil =>
      cases hp : pat.data with
      | nil => exact h hp
      | cons c cs => rw [hp] at hnil; simp at hnil
    | cons x xs => simp at hnil

theorem quoted_data_ne_nil (s : String) : (quoted s).data ≠ [] := by
  show (("\"" ++ s) ++ "\"").data ≠ []
  rw [String.data_append]
  simp

theorem reconcileTypes_fst (tfConfig zoneName zname : String) (l : Types) :
    (reconcileTypes tfConfig zoneName zname l).1 =
      l.filter (fun ntype =>
        !(containsSubstr tfConfig (quoted (createUniqueRecordsetName zoneName zname ntype)))) := by
  induction l with
  | nil => rfl
  | cons ntype rest ih =>
    simp only [reconcileTypes, List.filter]
    rcases h : containsSubstr tfConfig (quoted (createUniqueRecordsetName zoneName zname ntype)) with _ | _
    · simpa [h] using congrArg (List.cons ntype) ih
    · simpa [h] using ih

theorem reconcileTypes_snd (tfConfig zoneName zname : String) (l : Types) :
    (reconcileTypes tfConfig zoneName zname l).2 =
      (l.filter (fun ntype =>
        !(containsSubstr tfConfig (quoted (createUniqueRecordsetName zoneName zname ntype))))).map
        (fun ntype => (ntype, true)) := by
  induction l with
  | nil => rfl
  | cons ntype rest ih =>
    simp only [reconcileTypes, List.filter]
    rcases h : containsSubstr tfConfig (quoted (createUniqueRecordsetName zoneName zname ntype)) with _ | _
    · simpa [h] using congrArg (List.cons (ntype, true)) ih
    · simpa [h] using ih

theorem residualOf_eq (inv : zoneImportListStruct) (zoneName tfConfig : String) :
    residualOf inv zoneName tfConfig =
      inv.Recordsets.map (fun q =>
        (q.1, q.2.filter (fun ntype =>
          !(containsSubstr tfConfig (quoted (createUniqueRecordsetName zoneName q.1 ntype)))))) := by
  simp [residualOf, reconcileZoneResourceTargets, List.map_map, Function.comp,
    reconcileTypes_fst]

/-- C2: the ResidualSet computed by reconciliation equals the inventory
minus the identifiers whose quoted composite form occurs in the existing
text (per-name filter), and in particular every type in the residual list
of a name is a member of the inventory's type list for that name — the
residual never contains an identifier absent from the inventory. -/
theorem C2_residual_is_monotonic_subtraction (inv : zoneImportListStruct)
    (zoneName tfConfig : String) :
    residualOf inv zoneName tfConfig =
      inv.Recordsets.map (fun q =>
        (q.1, q.2.filter (fun ntype =>
          !(containsSubstr tfConfig (quoted (createUniqueRecordsetName zoneName q.1 ntype)))))) ∧
    ∀ p ∈ residualOf inv zoneName tfConfig,
      ∃ q ∈ inv.Recordsets, p.1 = q.1 ∧ ∀ ty ∈ p.2, ty ∈ q.2 := by
  refine ⟨residualOf_eq inv zoneName tfConfig, ?_⟩
  intro p hp
  rw [residualOf_eq] at hp
  obtain ⟨q, hq, rfl⟩ := List.mem_map.mp hp
  refine ⟨q, hq, rfl, ?_⟩
  intro ty hty
  exact (List.mem_filter.mp hty).1

/-- C6: with empty existing text the whole inventory becomes the residual —
every record name keeps its full type list and every type is marked `true`
in the per-name boolean map. -/
theorem C6_empty_text_full_residual (inv : zoneImportListStruct) (zoneName : String) :
    residualOf inv zoneName "" = inv.Recordsets ∧
    (reconcileZoneResourceTargets inv zoneName "").2 =
      inv.Recordsets.map (fun q => (q.1, q.2.map (fun ty => (ty, true)))) := by
  have hfalse : ∀ s : String, containsSubstr "" (quoted s) = false :=
    fun s => containsSubstr_empty (quoted s) (quoted_data_ne_nil s)
  constructor
  · rw [residualOf_eq]
    simp [hfalse]
  · simp [reconcileZoneResourceTargets, List.map_map, Function.comp,
      reconcileTypes_snd, hfalse]

/-- C7: membership is decided per individual composite identifier by
quoted-token substring match — against text containing the quoted
normalized name for (zonea, www, A) but not for (zonea, www, AAAA),
reconciling the inventory with types [A, AAAA] under www yields the
residual [AAAA] only. -/
theorem C7_substring_match_fidelity :
    residualOf ⟨"zonea", [("www", ["A", "AAAA"])]⟩ "zonea"
        "resource \"akamai_dns_record\" \"zonea_www_A\" recordsetdata" =
      [("www", ["AAAA"])] ∧
    containsSubstr "resource \"akamai_dns_record\" \"zonea_www_A\" recordsetdata"
      (quoted (createUniqueRecordsetName "zonea" "www" "A")) = true ∧
    containsSubstr "resource \"akamai_dns_record\" \"zonea_www_A\" recordsetdata"
      (quoted (createUniqueRecordsetName "zonea" "www" "AAAA")) = false := by
  refine ⟨by decide, by decide, by decide⟩

/-- C3 counterexample: the Existing-Config Scanner does not return the raw
text of an existing file byte-for-byte — for the two-byte file content
"ab" it returns "a", dropping the final byte
(`tfScratch[0:charsRead-1]`, line 978). -/
theorem C3_counterexample_last_byte_dropped :
    scanExistingConfig (some "ab") = "a" ∧ ("a" : String) ≠ "ab" := by
  exact ⟨by decide, by decide⟩

/-- C3 amended: for an existing file the scanner returns the file content
with its final byte removed (so content minus the last byte is what
identifiers are matched against), and the empty string, with no error,
when the file does not exist. -/
theorem C3_amended_scanner_drops_final_byte (content : String) :
    (scanExistingConfig (some content)).data = content.data.dropLast ∧
    (scanExistingConfig none).data = [] := by
  constructor
  · show (if 0 < content.data.length then String.mk content.data.dropLast else "").data =
      content.data.dropLast
    by_cases h : 0 < content.data.length
    · rw [if_pos h]
    · have hnil : content.data = [] := by
        rcases hc : content.data with _ | ⟨c, cs⟩
        · rfl
        · rw [hc] at h
          simp at h
      rw [if_neg h, hnil]
      rfl
  · rfl

/-- C4 counterexample: with the configOnly flag set the config step does
not obtain the persisted inventory — `retrieveZoneImportList` ignores the
side file (here holding recordsets for "www") and returns a fresh list
with an empty recordset map. -/
theorem C4_counterexample_configonly_ignores_side_file :
    retrieveZoneImportList false ⟨"", []⟩ true "zone1"
        (some ⟨"zone1", [("www", ["A"])]⟩) = Except.ok ⟨"zone1", []⟩ ∧
    (⟨"zone1", []⟩ : zoneImportListStruct) ≠ ⟨"zone1", [("www", ["A"])]⟩ := by
  exact ⟨rfl, by decide⟩

/-- C4 amended: when configOnly is set (and the resources flag is not) the
config step does not read the persisted inventory side file — it uses a
fresh inventory holding only the zone name and an empty recordsets map;
the persisted side file is loaded exactly when neither flag is set. -/
theorem C4_amended_configonly_fresh_empty_inventory
    (fullList : zoneImportListStruct) (zoneName : String)
    (sideFile : Option zoneImportListStruct) (l : zoneImportListStruct) :
    retrieveZoneImportList false fullList true zoneName sideFile =
      Except.ok ⟨zoneName, []⟩ ∧
    retrieveZoneImportList false fullList false zoneName (some l) = Except.ok l ∧
    retrieveZoneImportList false fullList false zoneName none = Except.error () := by
  exact ⟨rfl, rfl, rfl⟩

/-- C10: when the zone resources list file already exists at the work
path, the inventory step fails (no success) and leaves the pre-existing
persisted inventory byte-for-byte unchanged — nothing is written. -/
theorem C10_existing_resource_list_file_causes_bail (existing inventoryJSON : String) :
    createImportListFileStep true (some existing) inventoryJSON = (false, some existing) :=
  rfl

/-- C1: idempotent merge — reconciling a second time, against the same
inventory and a text that contains the first run's reference text and
declares every first-run residual identifier in quoted form, yields an
empty ResidualSet: every identifier emitted by the first run is detected
as present and excluded on the second run. -/
theorem C1_second_run_yields_empty_residual (inv : zoneImportListStruct)
    (zoneName t0 t1 : String)
    (h1 : ∀ p ∈ residualOf inv zoneName t0, ∀ ty ∈ p.2,
      containsSubstr t1 (quoted (createUniqueRecordsetName zoneName p.1 ty)) = true)
    (h2 : containsSubstr t1 t0 = true) :
    ∀ p ∈ residualOf inv zoneName t1, p.2 = [] := by
  intro p hp
  rw [residualOf_eq] at hp
  obtain ⟨q, hq, rfl⟩ := List.mem_map.mp hp
  rw [List.eq_nil_iff_forall_not_mem]
  intro ty hty
  have hmem := List.mem_filter.mp hty
  have hnot : containsSubstr t1 (quoted (createUniqueRecordsetName zoneName q.1 ty)) = false := by
    have hb := hmem.2
    simpa using hb
  rcases h0 : containsSubstr t0 (quoted (createUniqueRecordsetName zoneName q.1 ty)) with _ | _
  · have hresid : (q.1, q.2.filter (fun nt =>
        !(containsSubstr t0 (quoted (createUniqueRecordsetName zoneName q.1 nt))))) ∈
        residualOf inv zoneName t0 := by
      rw [residualOf_eq]
      exact List.mem_map.mpr ⟨q, hq, rfl⟩
    have hty0 : ty ∈ q.2.filter (fun nt =>
        !(containsSubstr t0 (quoted (createUniqueRecordsetName zoneName q.1 nt)))) :=
      List.mem_filter.mpr ⟨hmem.1, by simp [h0]⟩
    have hfound := h1 _ hresid ty hty0
    simp only [hfound] at hnot
    cases hnot
  · have hfound := containsSubstr_trans t0 t1 _ h0 h2
    simp only [hfound] at hnot
    cases hnot

/-- C1 witness: a one-record inventory, first run against empty text (so
the whole inventory is first-run residual), second run against a text
declaring that identifier in quoted form — residual of the second run is
empty. -/
theorem C1_second_run_yields_empty_residual_witness :
    (∀ p ∈ residualOf ⟨"zonea", [("www", ["A"])]⟩ "zonea" "", ∀ ty ∈ p.2,
      containsSubstr "x \"zonea_www_A\" y"
        (quoted (createUniqueRecordsetName "zonea" p.1 ty)) = true) ∧
    containsSubstr "x \"zonea_www_A\" y" "" = true ∧
    ∀ p ∈ residualOf ⟨"zonea", [("www", ["A"])]⟩ "zonea" "x \"zonea_www_A\" y", p.2 = [] :=
  ⟨by decide, by decide,
   C1_second_run_yields_empty_residual ⟨"zonea", [("www", ["A"])]⟩ "zonea" ""
     "x \"zonea_www_A\" y" (by decide) (by decide)⟩

/-- C5: with non-empty scanned existing configuration text, a
segmentConfig run against flat text (lacking the pair of module markers)
fails with the fatal layout-mismatch error, and a non-segmentConfig run
against modularized text (containing both markers) also fails; in both
cases the run returns the error and emits nothing. -/
theorem C5_layout_conflict_is_fatal (priorFile : Option String)
    (freshZoneText rendered : String)
    (hne : (scanExistingConfig priorFile).data ≠ []) :
    ((containsSubstr (scanExistingConfig priorFile) "module" &&
        containsSubstr (scanExistingConfig priorFile) "zonename") = false →
      zoneConfigRun priorFile true freshZoneText rendered =
        Except.error "Failed. Existing zone config is not modularized") ∧
    ((containsSubstr (scanExistingConfig priorFile) "module" &&
        containsSubstr (scanExistingConfig priorFile) "zonename") = true →
      zoneConfigRun priorFile false freshZoneText rendered =
        Except.error "Failed. Existing zone config is modularized") := by
  have hlen : 0 < (scanExistingConfig priorFile).data.length := List.length_pos.mpr hne
  have hlen2 : 0 < (scanExistingConfig priorFile).length := hlen
  constructor
  · intro hmarks
    unfold zoneConfigRun checkZoneConfigLayout
    simp [hlen, hlen2, hmarks]
  · intro hmarks
    unfold zoneConfigRun checkZoneConfigLayout
    simp [hlen, hlen2, hmarks]

/-- C5 witness: the flat two-byte file "xy" rejects a segmentConfig run,
and a file scanned as "module zonename!" rejects a flat run. -/
theorem C5_layout_conflict_is_fatal_witness :
    (scanExistingConfig (some "xy")).data ≠ [] ∧
    zoneConfigRun (some "xy") true "F" "R" =
      Except.error "Failed. Existing zone config is not modularized" ∧
    (scanExistingConfig (some "module zonename!!")).data ≠ [] ∧
    zoneConfigRun (some "module zonename!!") false "F" "R" =
      Except.error "Failed. Existing zone config is modularized" :=
  ⟨by decide,
   (C5_layout_conflict_is_fatal (some "xy") "F" "R" (by decide)).1 (by decide),
   by decide,
   (C5_layout_conflict_is_fatal (some "module zonename!!") "F" "R" (by decide)).2 (by decide)⟩

/-- C8 counterexample: the emitter does not preserve the prior file
content as a prefix — over the existing file "ab" (flat, layout check
passes), appending "X" produces "aX": the prior final byte is overwritten
because the handle sits at offset 0 and only the scanned text (prior
content minus its final byte) is rewritten before the appended text. -/
theorem C8_counterexample_prior_not_preserved :
    zoneConfigRun (some "ab") false "ZZ" "X" = Except.ok "aX" ∧
    listIsPfx ("ab" : String).data ("aX" : String).data = false := by
  exact ⟨rfl, by decide⟩

/-- C8 amended: after a config-generation run over an existing target file
of at least two bytes that passes the layout check, the prior content
minus its final byte is preserved as a prefix of the new content; the file
is byte-for-byte unchanged when nothing is appended, and otherwise the new
content is exactly the prior content minus its final byte followed by the
appended text (so the prior final byte is overwritten). -/
theorem C8_amended_emitter_rewrites_scanned_text (p freshZoneText rendered : String)
    (modSegment : Bool) (hlen : 1 < p.data.length)
    (hok : checkZoneConfigLayout (scanExistingConfig (some p)) modSegment = Except.ok ()) :
    ∃ final, zoneConfigRun (some p) modSegment freshZoneText rendered = Except.ok final ∧
      listIsPfx p.data.dropLast final.data = true ∧
      (rendered = "" → final = p) ∧
      (rendered.data ≠ [] → final.data = p.data.dropLast ++ rendered.data) := by
  have h0 : 0 < p.data.length := Nat.lt_of_le_of_lt (Nat.zero_le 1) hlen
  have hscan : scanExistingConfig (some p) = String.mk p.data.dropLast := by
    show (if 0 < p.data.length then String.mk p.data.dropLast else "") = String.mk p.data.dropLast
    rw [if_pos h0]
  have hdllen : p.data.dropLast.length = p.data.length - 1 := List.length_dropLast p.data
  have hlenpos : 0 < (String.mk p.data.dropLast).data.length := by
    show 0 < p.data.dropLast.length
    rw [hdllen]
    omega
  have hlenpos2 : 0 < (String.mk p.data.dropLast).length := hlenpos
  have hrun : zoneConfigRun (some p) modSegment freshZoneText rendered =
      Except.ok (writeAtStart p (String.mk p.data.dropLast ++ rendered)) := by
    unfold zoneConfigRun
    rw [hscan] at hok
    rw [hscan, hok, if_pos hlenpos]
    rfl
  have hwdata : (String.mk p.data.dropLast ++ rendered).data =
      p.data.dropLast ++ rendered.data := by
    rw [String.data_append]
  have hfinal : (writeAtStart p (String.mk p.data.dropLast ++ rendered)).data =
      p.data.dropLast ++ rendered.data ++
        p.data.drop (p.data.dropLast.length + rendered.data.length) := by
    show ((String.mk p.data.dropLast ++ rendered).data ++
      p.data.drop (String.mk p.data.dropLast ++ rendered).data.length) =
      p.data.dropLast ++ rendered.data ++
        p.data.drop (p.data.dropLast.length + rendered.data.length)
    rw [hwdata, List.length_append]
  refine ⟨writeAtStart p (String.mk p.data.dropLast ++ rendered), hrun, ?_, ?_, ?_⟩
  · rw [listIsPfx_iff]
    refine ⟨rendered.data ++ p.data.drop (p.data.dropLast.length + rendered.data.length), ?_⟩
    rw [hfinal, List.append_assoc]
  · intro hr
    subst hr
    have hdl : p.data.dropLast ++ p.data.drop (p.data.length - 1) = p.data := by
      rw [List.dropLast_eq_take]
      exact List.take_append_drop _ _
    have hdata : (writeAtStart p (String.mk p.data.dropLast ++ "")).data = p.data := by
      rw [hfinal]
      show p.data.dropLast ++ [] ++ p.data.drop (p.data.dropLast.length + 0) = p.data
      rw [List.append_nil, Nat.add_zero, hdllen, hdl]
    calc writeAtStart p (String.mk p.data.dropLast ++ "")
        = String.mk (writeAtStart p (String.mk p.data.dropLast ++ "")).data := rfl
      _ = String.mk p.data := by rw [hdata]
      _ = p := rfl
  · intro hr
    have hrpos : 0 < rendered.data.length := List.length_pos.mpr hr
    have hge : p.data.length ≤ p.data.dropLast.length + rendered.data.length := by
      rw [hdllen]
      omega
    have hdrop : p.data.drop (p.data.dropLast.length + rendered.data.length) = [] :=
      List.drop_eq_nil_of_le hge
    rw [hfinal, hdrop, List.append_nil]

/-- C8 amended witness: over the three-byte flat file "abc", appending
"XY" yields content "abXY" — "ab" (prior minus final byte) is a prefix,
and an empty append leaves the file unchanged. -/
theorem C8_amended_emitter_rewrites_scanned_text_witness :
    (1 < ("abc" : String).data.length) ∧
    checkZoneConfigLayout (scanExistingConfig (some "abc")) false = Except.ok () ∧
    (∃ final, zoneConfigRun (some "abc") false "F" "XY" = Except.ok final ∧
      listIsPfx ("abc" : String).data.dropLast final.data = true ∧
      (("XY" : String) = "" → final = "abc") ∧
      (("XY" : String).data ≠ [] →
        final.data = ("abc" : String).data.dropLast ++ ("XY" : String).data)) :=
  ⟨by decide, rfl,
   C8_amended_emitter_rewrites_scanned_text "abc" "F" "XY" false (by decide) rfl⟩

theorem countLines_append (s t : String) :
    countLines (s ++ t) = countLines s + countLines t := by
  simp [countLines, String.data_append, List.count_append]

theorem countLines_createUniqueRecordsetName (rname zname tname : String)
    (hr : countLines rname = 0) (hn : countLines zname = 0)
    (ht : countLines tname = 0) :
    countLines (createUniqueRecordsetName rname zname tname) = 0 := by
  have hu : countLines "_" = 0 := by decide
  simp [createUniqueRecordsetName, countLines_append, hr, hn, ht, hu]

theorem countLines_typeImportLines (zone rname config zname : String)
    (hz : countLines zone = 0) (hr : countLines rname = 0)
    (hn : countLines zname = 0) :
    ∀ ts : Types, (∀ t ∈ ts, countLines t = 0) →
      countLines (typeImportLines zone rname config zname ts) =
        undeclaredTypeCount rname config zname ts := by
  intro ts
  induction ts with
  | nil =>
    intro _
    rfl
  | cons t rest ih =>
    intro hts
    have ht0 : countLines t = 0 := hts t (List.mem_cons_self t rest)
    have htr : ∀ x ∈ rest, countLines x = 0 :=
      fun x hx => hts x (List.mem_cons_of_mem t hx)
    have hnormal : countLines (createUniqueRecordsetName rname zname t) = 0 :=
      countLines_createUniqueRecordsetName rname zname t hr hn ht0
    have hc1 : countLines "terraform import " = 0 := by decide
    have hc2 : countLines recordsetResource = 0 := by decide
    have hc3 : countLines "." = 0 := by decide
    have hc4 : countLines " " = 0 := by decide
    have hc5 : countLines "#" = 0 := by decide
    have hc6 : countLines "\n" = 1 := by decide
    have hc7 : countLines "" = 0 := by decide
    simp only [typeImportLines, undeclaredTypeCount, List.countP_cons]
    rcases h : checkForResource recordsetResource
        (createUniqueRecordsetName rname zname t) config with _ | _
    · simp only [h, Bool.not_false, if_true, countLines_append]
      rw [ih htr]
      simp [hc1, hc2, hc3, hc4, hc5, hc6, hz, hn, ht0, hnormal, h,
        undeclaredTypeCount, Nat.add_comm]
    · simp only [h, Bool.not_true, if_false, countLines_append]
      rw [ih htr]
      simp [hc7, h, undeclaredTypeCount]

theorem countLines_recordImportLines (zone rname config : String)
    (hz : countLines zone = 0) (hr : countLines rname = 0) :
    ∀ m : List (String × Types),
      (∀ p ∈ m, countLines p.1 = 0 ∧ ∀ t ∈ p.2, countLines t = 0) →
      countLines (recordImportLines zone rname config m) =
        undeclaredCount rname config m := by
  intro m
  induction m with
  | nil =>
    intro _
    rfl
  | cons p rest ih =>
    intro hm
    have hp := hm p (List.mem_cons_self p rest)
    have hrest : ∀ q ∈ rest, countLines q.1 = 0 ∧ ∀ t ∈ q.2, countLines t = 0 :=
      fun q hq => hm q (List.mem_cons_of_mem p hq)
    simp only [recordImportLines, countLines_append, undeclaredCount, List.map_cons,
      List.sum_cons]
    rw [ih hrest, countLines_typeImportLines zone rname config p.1 hz hr hp.1 p.2 hp.2]
    rfl

/-- C9: the generated import script is one leading `terraform init` line,
one zone import line exactly when the zone resource is not already
declared, and one `terraform import` line per (name, type) identifier of
the zone config map not already declared — its line count (newline count)
is 1 + (0 or 1 for the zone) + the number of undeclared identifiers. -/
theorem C9_import_script_shape (zone rname config : String)
    (m : List (String × Types)) (hz : countLines zone = 0)
    (hr : countLines rname = 0)
    (hm : ∀ p ∈ m, countLines p.1 = 0 ∧ ∀ t ∈ p.2, countLines t = 0) :
    listIsPfx ("terraform init\n" : String).data
      (buildZoneImportScript zone m rname config).data = true ∧
    countLines (buildZoneImportScript zone m rname config) =
      1 + (if checkForResource zoneResource rname config then 0 else 1)
        + undeclaredCount rname config m := by
  constructor
  · rw [listIsPfx_iff]
    refine ⟨((if !(checkForResource zoneResource rname config) then
        "terraform import " ++ zoneResource ++ "." ++ rname ++ " " ++ zone ++ "\n"
      else "")).data ++ (recordImportLines zone rname config m).data, ?_⟩
    show (("terraform init\n"
        ++ (if !(checkForResource zoneResource rname config) then
              "terraform import " ++ zoneResource ++ "." ++ rname ++ " " ++ zone ++ "\n"
            else ""))
        ++ recordImportLines zone rname config m).data = _
    rw [String.data_append, String.data_append, List.append_assoc]
  · have hc1 : countLines "terraform import " = 0 := by decide
    have hc2 : countLines zoneResource = 0 := by decide
    have hc3 : countLines "." = 0 := by decide
    have hc4 : countLines " " = 0 := by decide
    have hc6 : countLines "\n" = 1 := by decide
    have hc7 : countLines "" = 0 := by decide
    have hinit : countLines "terraform init\n" = 1 := by decide
    show countLines (("terraform init\n"
        ++ (if !(checkForResource zoneResource rname config) then
              "terraform import " ++ zoneResource ++ "." ++ rname ++ " " ++ zone ++ "\n"
            else ""))
        ++ recordImportLines zone rname config m) = _
    rw [countLines_append, countLines_append,
      countLines_recordImportLines zone rname config hz hr m hm]
    rcases hchk : checkForResource zoneResource rname config with _ | _
    · simp only [hchk, Bool.not_false, if_true, if_false, countLines_append]
      simp [hc1, hc2, hc3, hc4, hc6, hinit, hz, hr]
    · simp only [hchk, Bool.not_true, if_false, if_true, countLines_append]
      simp [hc7, hinit]

/-- C9 witness: the two-recordset inventory from the spec's end-to-end
scenario, with no existing configuration file and the zone resource
undeclared, yields an import script of exactly 4 lines — init, the zone
import, and one import per recordset. -/
theorem C9_import_script_shape_witness :
    countLines "example.com" = 0 ∧ countLines "example-com" = 0 ∧
    (∀ p ∈ ([("example.com", ["A"]), ("www.example.com", ["CNAME"])] :
        List (String × Types)),
      countLines p.1 = 0 ∧ ∀ t ∈ p.2, countLines t = 0) ∧
    (listIsPfx ("terraform init\n" : String).data
      (buildZoneImportScript "example.com"
        [("example.com", ["A"]), ("www.example.com", ["CNAME"])]
        "example-com" "").data = true ∧
     countLines (buildZoneImportScript "example.com"
        [("example.com", ["A"]), ("www.example.com", ["CNAME"])]
        "example-com" "") =
      1 + (if checkForResource zoneResource "example-com" "" then 0 else 1)
        + undeclaredCount "example-com" ""
            [("example.com", ["A"]), ("www.example.com", ["CNAME"])]) ∧
    countLines (buildZoneImportScript "example.com"
        [("example.com", ["A"]), ("www.example.com", ["CNAME"])]
        "example-com" "") = 4 :=
  ⟨by decide, by decide, by decide,
   C9_import_script_shape "example.com" "example-com" ""
     [("example.com", ["A"]), ("www.example.com", ["CNAME"])]
     (by decide) (by decide) (by decide),
   by decide⟩

end CliTerraform
